import Mathlib

/-!
# Shallow embedding of `app.py` (Tewilkinson/knowledgegraphgenerator)

The repository is a single Streamlit script that builds a knowledge graph
around a seed label by querying Wikidata (search + SPARQL), ConceptNet and
an OpenAI chat model, assembling the results in a `networkx.Graph`.

This file embeds the graph data model and the `build_graph` pipeline of
`src/app.py`.  External HTTP/API calls are modelled by an environment
(`Env`, deterministic responses for the `@st.cache_data`-memoized
deterministic endpoints) and an `Oracle` (raw chat-completion contents for
the two GPT helpers, which are non-deterministic across processes and are
explicitly threaded through their memoization caches, `St`).

Python exceptions raised by a call are modelled with `Except Unit`:
an `.error ()` value at a fetcher's result is an exception raised at that
call site; `build_graph` itself performs no exception handling, so the
explicit `Except` propagation through the stage continuations mirrors
Python propagation exactly.  Only `lookup_qid` has a `try/except` (it
returns `None` on any failure).
-/

/-- Attributes stored for a node: `G.add_node(nid, label=…, rel=…, depth=…)`. -/
structure NodeData where
  label : String
  rel : String
  depth : Nat
deriving Repr, DecidableEq

/-- The `networkx.Graph` state used by `build_graph`.

`nodes` is an insertion-ordered association list (networkx preserves node
insertion order, which matters for the `list(G.nodes())` snapshot taken by
the final loop of `build_graph`).  `edges` is the list of undirected edges
in insertion order; `add_edge` on an existing edge (in either orientation)
is a no-op.

`edgeOk` is a ghost flag: it records whether every `add_edge` call so far
had both endpoints already present as nodes at the moment of the call
(`nx.Graph.add_edge` would silently create a missing endpoint, and the
`nodes` field faithfully reflects that; `edgeOk` merely observes whether
the default branch was ever needed). -/
structure Graph where
  nodes : List (String × NodeData)
  edges : List (String × String)
  edgeOk : Bool
deriving Repr, DecidableEq

/-- Association-list lookup by key (first match wins), used for `G.nodes[n]`. -/
def alookup {α β : Type} [DecidableEq α] (k : α) : List (α × β) → Option β
  | [] => none
  | (k', v) :: rest => if k = k' then some v else alookup k rest

def Graph.empty : Graph := ⟨[], [], true⟩

/-- `G.has_node(n)`. -/
def Graph.hasNode (G : Graph) (nid : String) : Bool :=
  (alookup nid G.nodes).isSome

/-- `G.add_node(nid, label=…, rel=…, depth=…)`.  If the node already
exists, networkx updates its attribute dict in place (here: all three
attributes are supplied at every call site, so the stored data is replaced
wholesale); otherwise the node is appended. -/
def Graph.addNode (G : Graph) (nid : String) (d : NodeData) : Graph :=
  if G.hasNode nid then
    { G with nodes := G.nodes.map (fun p => if p.1 = nid then (nid, d) else p) }
  else
    { G with nodes := G.nodes ++ [(nid, d)] }

def Graph.hasEdge (G : Graph) (u v : String) : Bool :=
  G.edges.contains (u, v) || G.edges.contains (v, u)

/-- A node silently created by `add_edge` for a missing endpoint carries an
empty networkx attribute dict; the only reads `build_graph` performs are
`data.get("rel")` (modelled as `""`, which belongs to no rel-set tested) and
`data.get("depth", 0)` (modelled as `0`), so the empty dict is embedded as
this record. -/
def emptyAttrs : NodeData := ⟨"", "", 0⟩

/-- `G.add_edge(u, v)`: missing endpoints are created with empty attribute
dicts; a duplicate edge (either orientation) is not re-added.  The ghost
flag `edgeOk` is and-ed with "both endpoints existed before this call". -/
def Graph.addEdge (G : Graph) (u v : String) : Graph :=
  let ok := G.edgeOk && G.hasNode u && G.hasNode v
  let G1 := if G.hasNode u then G else { G with nodes := G.nodes ++ [(u, emptyAttrs)] }
  let G2 := if G1.hasNode v then G1 else { G1 with nodes := G1.nodes ++ [(v, emptyAttrs)] }
  if G2.hasEdge u v then { G2 with edgeOk := ok }
  else { G2 with edges := G2.edges ++ [(u, v)], edgeOk := ok }

/-- `ONTOLOGY["hierarchy_predicates"]`. -/
def hierarchyPredicates : List String := ["P279", "P31"]

/-- `ONTOLOGY["association_predicates"]`. -/
def associationPredicates : List String := ["P361", "P527", "P921"]

/-- The external world as seen by the deterministic (`@st.cache_data`)
endpoints, plus the sidebar settings.  A function value of `.error ()`
means that performing that HTTP call raises an exception (network error,
non-2xx via `raise_for_status`, or malformed payload).

`exactMatch` is what a SPARQL label-exact-match lookup *would* return for
a label; `app.py` never performs such a call — the field exists only to
state the spec's claimed fallback behaviour of the resolver (C7). -/
structure Env where
  seed : String
  subDepth : Nat
  taxLim : Nat
  semLim : Nat
  gptSeedLim : Nat
  gptRelLim : Nat
  custom : List (String × String)
  searchResp : String → Except Unit (List String)
  sparqlResp : String → List String → Except Unit (List (String × String × String))
  cnResp : String → Nat → Except Unit (List String)
  exactMatch : String → Option String

/-- Raw chat-completion message contents for the two OpenAI helpers.  These
calls are non-deterministic across processes, so the two runs of a
replay-comparison may see different oracles; within a process
`@st.cache_data` consults the oracle at most once per argument tuple. -/
structure Oracle where
  gptRaw : String → Nat → Except Unit String
  classifyRaw : String → String → Except Unit String

/-- Memoization entries for `get_gpt_related`, keyed by `(term, limit)`. -/
abbrev GptCacheL := List ((String × Nat) × List String)

/-- Memoization entries for `classify_edge_with_gpt`, keyed by
`(parent, child)`. -/
abbrev ClsCacheL := List ((String × String) × String)

/-- The `@st.cache_data` memoization state for the two GPT helpers (the
deterministic endpoints are functions of `Env`, so their memoization is
already implied).  Keys are the Python call-argument tuples; values are the
cached *return values* of the decorated functions (the parsed list for
`get_gpt_related`, the classified string for `classify_edge_with_gpt`).
`st.cache_data` does not cache raised exceptions. -/
structure St where
  gptCache : GptCacheL
  clsCache : ClsCacheL
deriving Repr, DecidableEq

/-- `lookup_qid(label)`: one `wbsearchentities` GET; `hits[0]["id"] if hits
else None`, with a bare `except: return None` catching every failure. -/
def lookupQid (env : Env) (label : String) : Option String :=
  match env.searchResp label with
  | .error _ => none
  | .ok hits => hits.head?

/-- Drop the longest run of characters satisfying `p` from the front of a
character list (structural-recursive, so that concrete builds reduce). -/
def stripLeading (p : Char → Bool) : List Char → List Char
  | [] => []
  | c :: cs => if p c then stripLeading p cs else c :: cs

/-- Python `str.strip()`: remove leading and trailing whitespace. -/
def pyStrip (s : String) : String :=
  ⟨(stripLeading Char.isWhitespace
      (stripLeading Char.isWhitespace s.data).reverse).reverse⟩

/-- Python `str.lower()` (per-character lowering). -/
def pyLower (s : String) : String :=
  ⟨s.data.map Char.toLower⟩

def splitLinesAux : List Char → List Char → List String
  | [], acc => [⟨acc.reverse⟩]
  | c :: cs, acc =>
    if c = '\n' then ⟨acc.reverse⟩ :: splitLinesAux cs []
    else splitLinesAux cs (c :: acc)

/-- Python `str.splitlines()`, embedded as splitting on `'\n'` (the extra
empty piece this produces after a trailing newline is dropped by the
non-empty filter of `gptParse`, so the difference is unobservable there). -/
def pySplitLines (s : String) : List String :=
  splitLinesAux s.data []

/-- The line cleanup of `get_gpt_related`:
`re.sub(r"^[-•\s]+", "", ln.strip())` — strip leading dashes, bullets and
whitespace from the stripped line. -/
def cleanLine (ln : String) : String :=
  ⟨stripLeading (fun c => c == '-' || c == '•' || c.isWhitespace) (pyStrip ln).data⟩

/-- The parsing loop of `get_gpt_related`: split the message content into
lines, clean each, keep the non-empty ones.  Note the `limit` argument
appears only in the prompt text; the parsed output is not truncated. -/
def gptParse (content : String) : List String :=
  (pySplitLines content).filterMap (fun ln =>
    let clean := cleanLine ln
    if clean = "" then none else some clean)

/-- `get_gpt_related(term, limit)` without its memoization: one
chat-completion call, then line parsing.  The call itself may raise. -/
def getGptRelated (o : Oracle) (term : String) (limit : Nat) :
    Except Unit (List String) :=
  (o.gptRaw term limit).map gptParse

def startsWithChars : List Char → List Char → Bool
  | [], _ => true
  | _ :: _, [] => false
  | p :: ps, c :: cs => p == c && startsWithChars ps cs

def occursIn (pat : List Char) : List Char → Bool
  | [] => startsWithChars pat []
  | c :: cs => startsWithChars pat (c :: cs) || occursIn pat cs

/-- Substring test: Python's `pat in s`. -/
def strContains (s pat : String) : Bool :=
  occursIn pat.data s.data

/-- The decision step of `classify_edge_with_gpt`:
`ans = content.strip().lower(); return "hierarchy" if "subtopic" in ans
else "association"`. -/
def classifyAnswer (content : String) : String :=
  if strContains (pyLower (pyStrip content)) "subtopic" then "hierarchy"
  else "association"

/-- `get_gpt_related` as called through `@st.cache_data`: on a cache hit
the oracle is not consulted and the cache is unchanged; on a miss the call
runs, and a successful (parsed) result is stored.  Exceptions are not
cached. -/
def memoGpt (o : Oracle) (c : GptCacheL) (term : String) (limit : Nat) :
    Except Unit (List String × GptCacheL) :=
  match alookup (term, limit) c with
  | some v => .ok (v, c)
  | none =>
    match getGptRelated o term limit with
    | .error e => .error e
    | .ok v => .ok (v, ((term, limit), v) :: c)

/-- `classify_edge_with_gpt` as called through `@st.cache_data`. -/
def memoCls (o : Oracle) (c : ClsCacheL) (parent child : String) :
    Except Unit (String × ClsCacheL) :=
  match alookup (parent, child) c with
  | some v => .ok (v, c)
  | none =>
    match o.classifyRaw parent child with
    | .error e => .error e
    | .ok content =>
      let v := classifyAnswer content
      .ok (v, ((parent, child), v) :: c)

/-- One iteration of the "Custom overrides" loop of `build_graph`. -/
def customStep (G : Graph) (pc : String × String) : Graph :=
  let G1 := if G.hasNode pc.1 then G else G.addNode pc.1 ⟨pc.1, "seed", 0⟩
  let G2 := G1.addNode pc.2 ⟨pc.2, "custom", 1⟩
  G2.addEdge pc.1 pc.2

/-- The "Wikidata relations" loop of `build_graph`: for each SPARQL row
`(prop, pLabel, objLabel)`, classify hierarchy predicates with GPT (through
its cache), then add the object node at depth 1 and an edge from the seed.
A classification failure propagates (no handler in `build_graph`). -/
def wikiLoop (o : Oracle) (seedLbl : String) :
    List (String × String × String) → Graph → ClsCacheL →
    Except Unit (Graph × ClsCacheL)
  | [], G, c => .ok (G, c)
  | (prop, _, objLbl) :: rest, G, c =>
    match (if hierarchyPredicates.contains prop then memoCls o c seedLbl objLbl
           else .ok ("association", c)) with
    | .error e => .error e
    | .ok (rtype, c') =>
      let G1 := G.addNode objLbl ⟨objLbl, rtype, 1⟩
      wikiLoop o seedLbl rest (G1.addEdge seedLbl objLbl) c'

/-- One iteration of the ConceptNet / GPT-on-seed loops: add a depth-1
node with the given rel tag and an edge from the seed. -/
def seedFanStep (seedLbl rtag : String) (G : Graph) (lbl : String) : Graph :=
  (G.addNode lbl ⟨lbl, rtag, 1⟩).addEdge seedLbl lbl

/-- The inner loop of the last stage: for each GPT suggestion `sub`, add it
with rel `gpt_related` at `data.get("depth", 0) + 1` and an edge to the
parent.  `data` is the *live* networkx attribute dict of `node`, so the
depth is re-read from the current graph at every iteration: when a
suggestion equals `node` itself, the `add_node` update is visible to the
next iteration and the depths escalate. -/
def gptSubsFold (node : String) (G : Graph) (subs : List String) : Graph :=
  subs.foldl (fun G' sub =>
    (G'.addNode sub ⟨sub, "gpt_related",
      ((alookup node G'.nodes).getD emptyAttrs).depth + 1⟩).addEdge node sub) G

/-- The "GPT on each related/association/custom node" loop, iterating over
the `list(G.nodes())` snapshot.  `data = G.nodes[node]` is bound afresh at
each outer iteration and its `rel` is read once at the `if` (nodes are
never removed, so the Python `KeyError` default is unreachable;
`emptyAttrs` matches the `.get` reads as documented there); the `depth`
read happens inside `gptSubsFold`, against the live dict. -/
def gptRelLoop (o : Oracle) (limit : Nat) :
    List String → Graph → GptCacheL → Except Unit (Graph × GptCacheL)
  | [], G, c => .ok (G, c)
  | node :: rest, G, c =>
    let data := (alookup node G.nodes).getD emptyAttrs
    if data.rel = "related" ∨ data.rel = "association" ∨ data.rel = "custom" then
      match memoGpt o c node limit with
      | .error e => .error e
      | .ok (subs, c') => gptRelLoop o limit rest (gptSubsFold node G subs) c'
    else gptRelLoop o limit rest G c

/-- The Wikidata stage of `build_graph`: `qid = lookup_qid(seed)`; only
when a QID was found, fetch the SPARQL relations (an uncaught failure
propagates) and run the classification/insertion loop. -/
def wikiStage (env : Env) (o : Oracle) (G : Graph) (c : ClsCacheL) :
    Except Unit (Graph × ClsCacheL) :=
  match lookupQid env env.seed with
  | some qid =>
    match env.sparqlResp qid (hierarchyPredicates ++ associationPredicates) with
    | .error e => .error e
    | .ok wrels => wikiLoop o env.seed wrels G c
  | none => .ok (G, c)

/-- The last stage of `build_graph`: snapshot `list(G.nodes())`, then GPT
on each related/association/custom node. -/
def gptRelStage (env : Env) (o : Oracle) (clsC : ClsCacheL) (G4 : Graph)
    (gptC0 : GptCacheL) : Except Unit (Graph × St) :=
  match gptRelLoop o env.gptRelLim (G4.nodes.map Prod.fst) G4 gptC0 with
  | .error e => .error e
  | .ok (G5, gptC1) => .ok (G5, ⟨gptC1, clsC⟩)

/-- The "GPT on seed" stage of `build_graph` (the fetch may raise), then
the last stage. -/
def gptSeedStage (env : Env) (o : Oracle) (clsC : ClsCacheL) (G3 : Graph)
    (gptC : GptCacheL) : Except Unit (Graph × St) :=
  match memoGpt o gptC env.seed env.gptSeedLim with
  | .error e => .error e
  | .ok (qs, gptC0) =>
    gptRelStage env o clsC (qs.foldl (seedFanStep env.seed "gpt_seed") G3) gptC0

/-- The ConceptNet stage of `build_graph` (the fetch may raise), then the
remaining stages. -/
def cnStage (env : Env) (o : Oracle) (clsC : ClsCacheL) (G2 : Graph)
    (gptC : GptCacheL) : Except Unit (Graph × St) :=
  match env.cnResp env.seed env.semLim with
  | .error e => .error e
  | .ok sems =>
    gptSeedStage env o clsC (sems.foldl (seedFanStep env.seed "related") G2) gptC

/-- `build_graph()` of `app.py`, with the module-level UI values read from
`env` and the memoization state threaded explicitly.  The stages in source
order: seed node, custom-CSV overrides, Wikidata relations (skipped when
`lookup_qid` returns `None`), ConceptNet neighbours, GPT on the seed, GPT
on each related/association/custom node (iterating over the
`list(G.nodes())` snapshot).  The stage continuations above are the
transliteration of the straight-line body; an `.error` anywhere is an
uncaught Python exception escaping `build_graph`. -/
def buildGraph (env : Env) (o : Oracle) (st : St) : Except Unit (Graph × St) :=
  match wikiStage env o
      (env.custom.foldl customStep (Graph.empty.addNode env.seed ⟨env.seed, "seed", 0⟩))
      st.clsCache with
  | .error e => .error e
  | .ok (G2, clsC) => cnStage env o clsC G2 st.gptCache

/-- Metadata of one outgoing HTTP/API call: the timeout passed (in
seconds; `none` when the code sets no explicit timeout) and the result
limit forwarded to the service (`none` when none is forwarded). -/
structure HttpCall where
  timeoutSecs : Option Nat
  limitParam : Option Nat
deriving Repr, DecidableEq

/-- The `requests.get(WIKIDATA_API, params={…, "limit": 1}, timeout=5)`
call of `lookup_qid`. -/
def searchCall (_label : String) : HttpCall := ⟨some 5, some 1⟩

/-- The `requests.get("https://api.conceptnet.io/…", params={…,
"limit": limit}, timeout=5)` call of `get_conceptnet_related`. -/
def conceptnetCall (_term : String) (limit : Nat) : HttpCall := ⟨some 5, some limit⟩

/-- The `SPARQLWrapper` query of `get_wikidata_relations`: no
`setTimeout` is called and the `SELECT` has no `LIMIT` clause; the
function signature takes no limit argument at all. -/
def sparqlCall (_qid : String) (_preds : List String) : HttpCall := ⟨none, none⟩

/-- The `openai_client.chat.completions.create(…)` call of
`get_gpt_related`: no timeout argument; `limit` appears only inside the
prompt text. -/
def gptCall (_term : String) (_limit : Nat) : HttpCall := ⟨none, none⟩

/-- The `openai_client.chat.completions.create(…)` call of
`classify_edge_with_gpt`: no timeout argument. -/
def classifyCall (_parent _child : String) : HttpCall := ⟨none, none⟩

/-- The resolver contract as the spec states it (§4.1): take the top
primary hit, otherwise fall back to a label-exact-match lookup, otherwise
NotFound.  Stated only to compare with `lookupQid` (claim C7). -/
def lookupQidSpec (env : Env) (label : String) : Option String :=
  match env.searchResp label with
  | .ok (h :: _) => some h
  | _ => env.exactMatch label

/-! ## Basic lemmas about the graph operations -/

theorem alookup_cons {α β : Type} [DecidableEq α] (k k' : α) (v : β)
    (l : List (α × β)) :
    alookup k ((k', v) :: l) = if k = k' then some v else alookup k l := rfl

theorem alookup_isSome_iff {α β : Type} [DecidableEq α] (k : α)
    (l : List (α × β)) :
    (alookup k l).isSome = true ↔ k ∈ l.map Prod.fst := by
  induction l with
  | nil => simp [alookup]
  | cons p rest ih =>
    obtain ⟨k', v⟩ := p
    by_cases h : k = k' <;> simp [alookup, h, ih]

theorem alookup_mem {α β : Type} [DecidableEq α] {k : α} {v : β}
    {l : List (α × β)} (h : alookup k l = some v) : (k, v) ∈ l := by
  induction l with
  | nil => simp [alookup] at h
  | cons p rest ih =>
    obtain ⟨k', v'⟩ := p
    by_cases hk : k = k'
    · subst hk
      simp [alookup] at h
      subst h
      exact List.mem_cons_self _ _
    · simp [alookup, hk] at h
      exact List.mem_cons_of_mem _ (ih h)

theorem hasNode_iff_mem_keys (G : Graph) (n : String) :
    G.hasNode n = true ↔ n ∈ G.nodes.map Prod.fst := by
  simp [Graph.hasNode, alookup_isSome_iff]

theorem addNode_keys_of_has {G : Graph} {nid : String} (d : NodeData)
    (h : G.hasNode nid = true) :
    (G.addNode nid d).nodes.map Prod.fst = G.nodes.map Prod.fst := by
  simp only [Graph.addNode, h, if_true]
  induction G.nodes with
  | nil => rfl
  | cons p rest ih =>
    by_cases hp : p.1 = nid <;> simp [hp, ih]

theorem addNode_keys_of_not_has {G : Graph} {nid : String} (d : NodeData)
    (h : ¬ G.hasNode nid = true) :
    (G.addNode nid d).nodes.map Prod.fst = G.nodes.map Prod.fst ++ [nid] := by
  simp [Graph.addNode, h]

theorem hasNode_addNode_self (G : Graph) (nid : String) (d : NodeData) :
    (G.addNode nid d).hasNode nid = true := by
  by_cases h : G.hasNode nid = true
  · rw [hasNode_iff_mem_keys, addNode_keys_of_has d h, ← hasNode_iff_mem_keys]
    exact h
  · rw [hasNode_iff_mem_keys, addNode_keys_of_not_has d h]
    simp

theorem hasNode_addNode_mono {G : Graph} {x : String} (nid : String)
    (d : NodeData) (h : G.hasNode x = true) :
    (G.addNode nid d).hasNode x = true := by
  by_cases hn : G.hasNode nid = true
  · rw [hasNode_iff_mem_keys, addNode_keys_of_has d hn, ← hasNode_iff_mem_keys]
    exact h
  · rw [hasNode_iff_mem_keys, addNode_keys_of_not_has d hn]
    rw [hasNode_iff_mem_keys] at h
    simp [h]

theorem mem_addNode {G : Graph} {nid : String} {d : NodeData}
    {p : String × NodeData} (h : p ∈ (G.addNode nid d).nodes) :
    p = (nid, d) ∨ p ∈ G.nodes := by
  by_cases hn : G.hasNode nid = true
  · simp only [Graph.addNode, hn, if_true, List.mem_map] at h
    obtain ⟨q, hq, hqe⟩ := h
    by_cases hqk : q.1 = nid
    · rw [if_pos hqk] at hqe
      exact Or.inl hqe.symm
    · rw [if_neg hqk] at hqe
      exact Or.inr (hqe ▸ hq)
  · simp only [Graph.addNode] at h
    rw [if_neg hn] at h
    rcases List.mem_append.mp h with h | h
    · exact Or.inr h
    · exact Or.inl (List.mem_singleton.mp h)

theorem addNode_edges (G : Graph) (nid : String) (d : NodeData) :
    (G.addNode nid d).edges = G.edges := by
  by_cases h : G.hasNode nid = true <;> simp [Graph.addNode, h]

theorem addNode_edgeOk (G : Graph) (nid : String) (d : NodeData) :
    (G.addNode nid d).edgeOk = G.edgeOk := by
  by_cases h : G.hasNode nid = true <;> simp [Graph.addNode, h]

theorem addEdge_nodes_of_has {G : Graph} {u v : String}
    (hu : G.hasNode u = true) (hv : G.hasNode v = true) :
    (G.addEdge u v).nodes = G.nodes := by
  by_cases he : G.hasEdge u v = true <;>
    simp [Graph.addEdge, hu, hv, he]

theorem addEdge_edgeOk_of_has {G : Graph} {u v : String}
    (hu : G.hasNode u = true) (hv : G.hasNode v = true) :
    (G.addEdge u v).edgeOk = G.edgeOk := by
  by_cases he : G.hasEdge u v = true <;>
    simp [Graph.addEdge, hu, hv, he]

theorem mem_addEdge_mono {G : Graph} {p : String × NodeData} (u v : String)
    (h : p ∈ G.nodes) : p ∈ (G.addEdge u v).nodes := by
  simp only [Graph.addEdge]
  split_ifs <;> simp [h]

theorem hasNode_addEdge_mono {G : Graph} {x : String} (u v : String)
    (h : G.hasNode x = true) : (G.addEdge u v).hasNode x = true := by
  rw [hasNode_iff_mem_keys] at h ⊢
  rw [List.mem_map] at h ⊢
  obtain ⟨p, hp, hpx⟩ := h
  exact ⟨p, mem_addEdge_mono u v hp, hpx⟩

/-! ## The build invariant -/

/-- The seven source tags that `build_graph` ever stores in `rel`. -/
def relAllowed (r : String) : Prop :=
  r = "seed" ∨ r = "custom" ∨ r = "hierarchy" ∨ r = "association" ∨
  r = "related" ∨ r = "gpt_seed" ∨ r = "gpt_related"

/-- The rel tags selected for expansion by the last stage of
`build_graph`. -/
def NodeData.expandable (d : NodeData) : Prop :=
  d.rel = "related" ∨ d.rel = "association" ∨ d.rel = "custom"

/-- Sanity of one stored attribute record: an allowed source tag.  (Depth
is analysed separately by `DepthInv` below, because the live-dict depth
read of the last stage can escalate depths when GPT suggests the queried
node itself.) -/
def goodData (d : NodeData) : Prop :=
  relAllowed d.rel

theorem goodData_mk (lbl r : String) (n : Nat) (hr : relAllowed r) :
    goodData ⟨lbl, r, n⟩ :=
  hr

/-- The invariant maintained by every stage of `build_graph`: node keys are
duplicate-free, every `add_edge` call so far had existing endpoints, the
seed node is present, and every stored tag is one of the seven. -/
def BuildInv (s : String) (G : Graph) : Prop :=
  (G.nodes.map Prod.fst).Nodup ∧
  G.edgeOk = true ∧
  G.hasNode s = true ∧
  ∀ p ∈ G.nodes, goodData p.2

theorem BuildInv.seedPresent {s : String} {G : Graph} (h : BuildInv s G) :
    G.hasNode s = true := h.2.2.1

theorem BuildInv.addNode {s : String} {G : Graph} {d : NodeData} (nid : String)
    (h : BuildInv s G) (hd : goodData d) : BuildInv s (G.addNode nid d) := by
  obtain ⟨hnd, hok, hs, hgood⟩ := h
  refine ⟨?_, ?_, hasNode_addNode_mono nid d hs, ?_⟩
  · by_cases hn : G.hasNode nid = true
    · rw [addNode_keys_of_has d hn]
      exact hnd
    · rw [addNode_keys_of_not_has d hn, List.nodup_append]
      refine ⟨hnd, List.nodup_singleton _, ?_⟩
      intro a ha hae
      rw [List.mem_singleton] at hae
      subst hae
      exact hn ((hasNode_iff_mem_keys G a).mpr ha)
  · rw [addNode_edgeOk]
    exact hok
  · intro p hp
    rcases mem_addNode hp with hp | hp
    · subst hp
      exact hd
    · exact hgood p hp

theorem BuildInv.addEdge {s : String} {G : Graph} {u v : String}
    (h : BuildInv s G) (hu : G.hasNode u = true) (hv : G.hasNode v = true) :
    BuildInv s (G.addEdge u v) := by
  obtain ⟨hnd, hok, hs, hgood⟩ := h
  refine ⟨?_, ?_, hasNode_addEdge_mono u v hs, ?_⟩
  · rw [addEdge_nodes_of_has hu hv]
    exact hnd
  · rw [addEdge_edgeOk_of_has hu hv]
    exact hok
  · intro p hp
    rw [addEdge_nodes_of_has hu hv] at hp
    exact hgood p hp

theorem inv_customStep {s : String} {G : Graph} (h : BuildInv s G)
    (pc : String × String) : BuildInv s (customStep G pc) := by
  have h1 : BuildInv s (if G.hasNode pc.1 then G else G.addNode pc.1 ⟨pc.1, "seed", 0⟩) := by
    split
    · exact h
    · exact h.addNode pc.1 (goodData_mk _ _ _ (Or.inl rfl))
  have hp1 : (if G.hasNode pc.1 then G
      else G.addNode pc.1 ⟨pc.1, "seed", 0⟩).hasNode pc.1 = true := by
    split
    · assumption
    · exact hasNode_addNode_self _ _ _
  have h2 := h1.addNode pc.2 (goodData_mk pc.2 "custom" 1 (Or.inr (Or.inl rfl)))
  show BuildInv s (Graph.addEdge _ pc.1 pc.2)
  exact h2.addEdge (hasNode_addNode_mono _ _ hp1) (hasNode_addNode_self _ _ _)

theorem inv_customFold {s : String} (l : List (String × String)) {G : Graph}
    (h : BuildInv s G) : BuildInv s (l.foldl customStep G) := by
  induction l generalizing G with
  | nil => exact h
  | cons pc rest ih => exact ih (inv_customStep h pc)

theorem inv_seedFanStep {s rtag : String} {G : Graph} (h : BuildInv s G)
    (hgood : ∀ lbl, goodData ⟨lbl, rtag, 1⟩) (lbl : String) :
    BuildInv s (seedFanStep s rtag G lbl) := by
  have h1 := h.addNode lbl (hgood lbl)
  exact h1.addEdge (hasNode_addNode_mono _ _ h.seedPresent) (hasNode_addNode_self _ _ _)

theorem inv_seedFanFold {s rtag : String} (l : List String) {G : Graph}
    (h : BuildInv s G) (hgood : ∀ lbl, goodData ⟨lbl, rtag, 1⟩) :
    BuildInv s (l.foldl (seedFanStep s rtag) G) := by
  induction l generalizing G with
  | nil => exact h
  | cons lbl rest ih => exact ih (inv_seedFanStep h hgood lbl)

/-! ## Invariants of the memoized classifier and the remaining loops -/

/-- Well-formedness of the classifier cache: every entry is a value that
`classify_edge_with_gpt` can actually return.  This models the fact that
`@st.cache_data` stores only prior return values of the decorated
function. -/
def clsWF (c : ClsCacheL) : Prop :=
  ∀ k v, alookup k c = some v → v = "hierarchy" ∨ v = "association"

theorem clsWF_nil : clsWF [] := by
  intro k v h
  simp [alookup] at h

theorem classifyAnswer_cases (content : String) :
    classifyAnswer content = "hierarchy" ∨ classifyAnswer content = "association" := by
  unfold classifyAnswer
  split
  · exact Or.inl rfl
  · exact Or.inr rfl

theorem memoCls_spec {o : Oracle} {c : ClsCacheL} {p ch v : String}
    {c' : ClsCacheL} (hwf : clsWF c) (h : memoCls o c p ch = .ok (v, c')) :
    (v = "hierarchy" ∨ v = "association") ∧ clsWF c' := by
  unfold memoCls at h
  cases hl : alookup (p, ch) c with
  | some w =>
    rw [hl] at h
    simp only [Except.ok.injEq, Prod.mk.injEq] at h
    obtain ⟨hv, hc⟩ := h
    subst hv
    subst hc
    exact ⟨hwf _ _ hl, hwf⟩
  | none =>
    rw [hl] at h
    cases hr : o.classifyRaw p ch with
    | error e =>
      rw [hr] at h
      cases h
    | ok content =>
      rw [hr] at h
      simp only [Except.ok.injEq, Prod.mk.injEq] at h
      obtain ⟨hv, hc⟩ := h
      subst hv
      subst hc
      refine ⟨classifyAnswer_cases content, ?_⟩
      intro k w hk
      rw [alookup_cons] at hk
      split at hk
      · cases hk
        exact classifyAnswer_cases content
      · exact hwf _ _ hk

theorem inv_wikiLoop {o : Oracle} {s : String} :
    ∀ (rows : List (String × String × String)) {G : Graph} {c : ClsCacheL}
      {G' : Graph} {c' : ClsCacheL},
      BuildInv s G → clsWF c → wikiLoop o s rows G c = .ok (G', c') →
      BuildInv s G' ∧ clsWF c' := by
  intro rows
  induction rows with
  | nil =>
    intro G c G' c' hI hwf h
    simp only [wikiLoop, Except.ok.injEq, Prod.mk.injEq] at h
    exact ⟨h.1 ▸ hI, h.2 ▸ hwf⟩
  | cons row rest ih =>
    intro G c G' c' hI hwf h
    obtain ⟨prop, plbl, objLbl⟩ := row
    unfold wikiLoop at h
    cases hm : (if hierarchyPredicates.contains prop then memoCls o c s objLbl
                else .ok ("association", c)) with
    | error e =>
      rw [hm] at h
      cases h
    | ok rc =>
      obtain ⟨rtype, c1⟩ := rc
      rw [hm] at h
      have hgood : (rtype = "hierarchy" ∨ rtype = "association") ∧ clsWF c1 := by
        split at hm
        · exact memoCls_spec hwf hm
        · simp only [Except.ok.injEq, Prod.mk.injEq] at hm
          obtain ⟨h1, h2⟩ := hm
          subst h1
          subst h2
          exact ⟨Or.inr rfl, hwf⟩
      have hra : relAllowed rtype := by
        rcases hgood.1 with hr | hr
        · subst hr
          exact Or.inr (Or.inr (Or.inl rfl))
        · subst hr
          exact Or.inr (Or.inr (Or.inr (Or.inl rfl)))
      have hI1 : BuildInv s ((G.addNode objLbl ⟨objLbl, rtype, 1⟩).addEdge s objLbl) := by
        have ha := hI.addNode objLbl (goodData_mk objLbl rtype 1 hra)
        exact ha.addEdge (hasNode_addNode_mono _ _ hI.seedPresent) (hasNode_addNode_self _ _ _)
      exact ih hI1 hgood.2 h

theorem hasNode_gptSubsFold_mono {node : String} (subs : List String)
    {G : Graph} {x : String} (h : G.hasNode x = true) :
    (gptSubsFold node G subs).hasNode x = true := by
  induction subs generalizing G with
  | nil => exact h
  | cons sub rest ih =>
    exact ih (hasNode_addEdge_mono _ _ (hasNode_addNode_mono _ _ h))

theorem inv_gptSubsFold {s node : String} (subs : List String)
    {G : Graph} (hI : BuildInv s G) (hn : G.hasNode node = true) :
    BuildInv s (gptSubsFold node G subs) := by
  induction subs generalizing G with
  | nil => exact hI
  | cons sub rest ih =>
    have h1 := hI.addNode sub
      (goodData_mk sub "gpt_related" (((alookup node G.nodes).getD emptyAttrs).depth + 1)
        (Or.inr (Or.inr (Or.inr (Or.inr (Or.inr (Or.inr rfl)))))))
    have h2 := h1.addEdge (hasNode_addNode_mono _ _ hn) (hasNode_addNode_self _ _ _)
    exact ih h2 (hasNode_addEdge_mono _ _ (hasNode_addNode_mono _ _ hn))

theorem inv_gptRelLoop {o : Oracle} {s : String} {lim : Nat} :
    ∀ (snap : List String) {G : Graph} {c : GptCacheL} {G' : Graph}
      {c' : GptCacheL},
      BuildInv s G → (∀ n ∈ snap, G.hasNode n = true) →
      gptRelLoop o lim snap G c = .ok (G', c') → BuildInv s G' := by
  intro snap
  induction snap with
  | nil =>
    intro G c G' c' hI _ h
    simp only [gptRelLoop, Except.ok.injEq, Prod.mk.injEq] at h
    exact h.1 ▸ hI
  | cons node rest ih =>
    intro G c G' c' hI hsnap h
    unfold gptRelLoop at h
    dsimp only at h
    by_cases hcond : ((alookup node G.nodes).getD emptyAttrs).rel = "related" ∨
        ((alookup node G.nodes).getD emptyAttrs).rel = "association" ∨
        ((alookup node G.nodes).getD emptyAttrs).rel = "custom"
    · rw [if_pos hcond] at h
      cases hm : memoGpt o c node lim with
      | error e =>
        rw [hm] at h
        cases h
      | ok sc =>
        obtain ⟨subs, c1⟩ := sc
        rw [hm] at h
        have hI1 := inv_gptSubsFold subs hI (hsnap node (List.mem_cons_self _ _))
        refine ih hI1 ?_ h
        intro n hn
        exact hasNode_gptSubsFold_mono subs (hsnap n (List.mem_cons_of_mem _ hn))
    · rw [if_neg hcond] at h
      exact ih hI (fun n hn => hsnap n (List.mem_cons_of_mem _ hn)) h

theorem inv_wikiStage {env : Env} {o : Oracle} {G G2 : Graph}
    {c c2 : ClsCacheL} (hI : BuildInv env.seed G) (hwf : clsWF c)
    (h : wikiStage env o G c = .ok (G2, c2)) :
    BuildInv env.seed G2 ∧ clsWF c2 := by
  unfold wikiStage at h
  split at h
  · split at h
    · cases h
    · rename_i wrels hs
      exact inv_wikiLoop wrels hI hwf h
  · simp only [Except.ok.injEq, Prod.mk.injEq] at h
    exact ⟨h.1 ▸ hI, h.2 ▸ hwf⟩

theorem inv_init (s : String) :
    BuildInv s (Graph.empty.addNode s ⟨s, "seed", 0⟩) := by
  refine ⟨?_, ?_, hasNode_addNode_self _ _ _, ?_⟩
  · simp [Graph.addNode, Graph.empty, Graph.hasNode, alookup]
  · simp [Graph.addNode, Graph.empty, Graph.hasNode, alookup]
  · intro p hp
    simp only [Graph.addNode, Graph.empty, Graph.hasNode, alookup] at hp
    simp at hp
    subst hp
    exact goodData_mk _ _ _ (Or.inl rfl)

/-- The build invariant holds of every successfully built graph, for any
well-formed incoming classifier cache. -/
theorem buildGraph_inv {env : Env} {o : Oracle} {st : St} {G : Graph}
    {st' : St} (hwf : clsWF st.clsCache)
    (h : buildGraph env o st = .ok (G, st')) : BuildInv env.seed G := by
  unfold buildGraph at h
  split at h
  · cases h
  · rename_i G2 clsC hw
    have hI2 := inv_wikiStage (inv_customFold env.custom (inv_init env.seed)) hwf hw
    unfold cnStage at h
    split at h
    · cases h
    · rename_i sems hcn
      have hI3 := inv_seedFanFold sems hI2.1
        (fun lbl => goodData_mk lbl "related" 1
          (Or.inr (Or.inr (Or.inr (Or.inr (Or.inl rfl))))))
      unfold gptSeedStage at h
      split at h
      · cases h
      · rename_i qs gptC0 hg
        have hI4 := inv_seedFanFold qs hI3
          (fun lbl => goodData_mk lbl "gpt_seed" 1
            (Or.inr (Or.inr (Or.inr (Or.inr (Or.inr (Or.inl rfl)))))))
        unfold gptRelStage at h
        split at h
        · cases h
        · rename_i G5 gptC1 hrl
          simp only [Except.ok.injEq, Prod.mk.injEq] at h
          have hI5 := inv_gptRelLoop _ hI4
            (fun n hn => (hasNode_iff_mem_keys _ n).mpr hn) hrl
          exact h.1 ▸ hI5

/-! ## Replay: a second build against the caches filled by a first build -/

/-- Cache extension: every entry of `c` is still present in `c'`.  The
memoization caches only ever grow (a hit writes nothing, a miss adds a key
that was absent), so entries are never overwritten. -/
def cext {κ α : Type} [DecidableEq κ] (c c' : List (κ × α)) : Prop :=
  ∀ k v, alookup k c = some v → alookup k c' = some v

theorem cext_refl {κ α : Type} [DecidableEq κ] (c : List (κ × α)) :
    cext c c := fun _ _ h => h

theorem cext_trans {κ α : Type} [DecidableEq κ] {a b c : List (κ × α)}
    (h1 : cext a b) (h2 : cext b c) : cext a c :=
  fun k v h => h2 k v (h1 k v h)

theorem cext_cons {κ α : Type} [DecidableEq κ] {c : List (κ × α)} {k : κ}
    (v : α) (h : alookup k c = none) : cext c ((k, v) :: c) := by
  intro k' v' h'
  rw [alookup_cons]
  split
  · rename_i hk
    subst hk
    rw [h] at h'
    cases h'
  · exact h'

theorem memoGpt_ok {o : Oracle} {c : GptCacheL} {t : String} {l : Nat}
    {v : List String} {c' : GptCacheL} (h : memoGpt o c t l = .ok (v, c')) :
    cext c c' ∧ alookup (t, l) c' = some v := by
  unfold memoGpt at h
  cases hl : alookup (t, l) c with
  | some w =>
    rw [hl] at h
    simp only [Except.ok.injEq, Prod.mk.injEq] at h
    obtain ⟨hv, hc⟩ := h
    subst hv
    subst hc
    exact ⟨cext_refl c, hl⟩
  | none =>
    rw [hl] at h
    cases hr : getGptRelated o t l with
    | error e =>
      rw [hr] at h
      cases h
    | ok w =>
      rw [hr] at h
      simp only [Except.ok.injEq, Prod.mk.injEq] at h
      obtain ⟨hv, hc⟩ := h
      subst hv
      subst hc
      refine ⟨cext_cons _ hl, ?_⟩
      rw [alookup_cons, if_pos rfl]

theorem memoGpt_hit {o : Oracle} {c : GptCacheL} {t : String} {l : Nat}
    {v : List String} (h : alookup (t, l) c = some v) :
    memoGpt o c t l = .ok (v, c) := by
  unfold memoGpt
  rw [h]

theorem memoCls_ok {o : Oracle} {c : ClsCacheL} {p ch v : String}
    {c' : ClsCacheL} (h : memoCls o c p ch = .ok (v, c')) :
    cext c c' ∧ alookup (p, ch) c' = some v := by
  unfold memoCls at h
  cases hl : alookup (p, ch) c with
  | some w =>
    rw [hl] at h
    simp only [Except.ok.injEq, Prod.mk.injEq] at h
    obtain ⟨hv, hc⟩ := h
    subst hv
    subst hc
    exact ⟨cext_refl c, hl⟩
  | none =>
    rw [hl] at h
    cases hr : o.classifyRaw p ch with
    | error e =>
      rw [hr] at h
      cases h
    | ok content =>
      rw [hr] at h
      simp only [Except.ok.injEq, Prod.mk.injEq] at h
      obtain ⟨hv, hc⟩ := h
      subst hv
      subst hc
      refine ⟨cext_cons _ hl, ?_⟩
      rw [alookup_cons, if_pos rfl]

theorem memoCls_hit {o : Oracle} {c : ClsCacheL} {p ch v : String}
    (h : alookup (p, ch) c = some v) : memoCls o c p ch = .ok (v, c) := by
  unfold memoCls
  rw [h]

theorem wikiLoop_replay {o : Oracle} {s : String} :
    ∀ (rows : List (String × String × String)) {G G' : Graph}
      {c c' : ClsCacheL},
      wikiLoop o s rows G c = .ok (G', c') →
      cext c c' ∧ ∀ (o2 : Oracle) (c2 : ClsCacheL), cext c' c2 →
        wikiLoop o2 s rows G c2 = .ok (G', c2) := by
  intro rows
  induction rows with
  | nil =>
    intro G G' c c' h
    simp only [wikiLoop, Except.ok.injEq, Prod.mk.injEq] at h
    obtain ⟨hG, hc⟩ := h
    subst hG
    subst hc
    exact ⟨cext_refl c, fun o2 c2 _ => rfl⟩
  | cons row rest ih =>
    intro G G' c c' h
    obtain ⟨prop, plbl, objLbl⟩ := row
    unfold wikiLoop at h
    by_cases hp : hierarchyPredicates.contains prop = true
    · rw [if_pos hp] at h
      cases hm : memoCls o c s objLbl with
      | error e =>
        rw [hm] at h
        cases h
      | ok rc =>
        obtain ⟨rtype, c1⟩ := rc
        rw [hm] at h
        obtain ⟨hext1, hhit⟩ := memoCls_ok hm
        obtain ⟨hext2, hrepl⟩ := ih h
        refine ⟨cext_trans hext1 hext2, ?_⟩
        intro o2 c2 hc2
        unfold wikiLoop
        rw [if_pos hp, memoCls_hit (hc2 _ _ (hext2 _ _ hhit))]
        exact hrepl o2 c2 hc2
    · rw [if_neg hp] at h
      obtain ⟨hext, hrepl⟩ := ih h
      refine ⟨hext, ?_⟩
      intro o2 c2 hc2
      unfold wikiLoop
      rw [if_neg hp]
      exact hrepl o2 c2 hc2

theorem gptRelLoop_replay {o : Oracle} {lim : Nat} :
    ∀ (snap : List String) {G G' : Graph} {c c' : GptCacheL},
      gptRelLoop o lim snap G c = .ok (G', c') →
      cext c c' ∧ ∀ (o2 : Oracle) (c2 : GptCacheL), cext c' c2 →
        gptRelLoop o2 lim snap G c2 = .ok (G', c2) := by
  intro snap
  induction snap with
  | nil =>
    intro G G' c c' h
    simp only [gptRelLoop, Except.ok.injEq, Prod.mk.injEq] at h
    obtain ⟨hG, hc⟩ := h
    subst hG
    subst hc
    exact ⟨cext_refl c, fun o2 c2 _ => rfl⟩
  | cons node rest ih =>
    intro G G' c c' h
    unfold gptRelLoop at h
    dsimp only at h
    by_cases hcond : ((alookup node G.nodes).getD emptyAttrs).rel = "related" ∨
        ((alookup node G.nodes).getD emptyAttrs).rel = "association" ∨
        ((alookup node G.nodes).getD emptyAttrs).rel = "custom"
    · rw [if_pos hcond] at h
      cases hm : memoGpt o c node lim with
      | error e =>
        rw [hm] at h
        cases h
      | ok sc =>
        obtain ⟨subs, c1⟩ := sc
        rw [hm] at h
        obtain ⟨hext1, hhit⟩ := memoGpt_ok hm
        obtain ⟨hext2, hrepl⟩ := ih h
        refine ⟨cext_trans hext1 hext2, ?_⟩
        intro o2 c2 hc2
        unfold gptRelLoop
        dsimp only
        rw [if_pos hcond, memoGpt_hit (hc2 _ _ (hext2 _ _ hhit))]
        exact hrepl o2 c2 hc2
    · rw [if_neg hcond] at h
      obtain ⟨hext, hrepl⟩ := ih h
      refine ⟨hext, ?_⟩
      intro o2 c2 hc2
      unfold gptRelLoop
      dsimp only
      rw [if_neg hcond]
      exact hrepl o2 c2 hc2

theorem wikiStage_replay {env : Env} {o : Oracle} {G G' : Graph}
    {c c' : ClsCacheL} (h : wikiStage env o G c = .ok (G', c')) :
    cext c c' ∧ ∀ (o2 : Oracle) (c2 : ClsCacheL), cext c' c2 →
      wikiStage env o2 G c2 = .ok (G', c2) := by
  unfold wikiStage at h
  split at h
  · rename_i qid hq
    split at h
    · cases h
    · rename_i wrels hs
      obtain ⟨hext, hrepl⟩ := wikiLoop_replay wrels h
      refine ⟨hext, ?_⟩
      intro o2 c2 hc2
      unfold wikiStage
      rw [hq]
      show (match env.sparqlResp qid (hierarchyPredicates ++ associationPredicates) with
            | Except.error e => Except.error e
            | Except.ok wrels => wikiLoop o2 env.seed wrels G c2) = Except.ok (G', c2)
      rw [hs]
      exact hrepl o2 c2 hc2
  · rename_i hq
    simp only [Except.ok.injEq, Prod.mk.injEq] at h
    obtain ⟨hG, hc⟩ := h
    subst hG
    subst hc
    refine ⟨cext_refl c, ?_⟩
    intro o2 c2 hc2
    unfold wikiStage
    rw [hq]

theorem gptRelStage_replay {env : Env} {o : Oracle} {clsC : ClsCacheL}
    {G4 : Graph} {gptC0 : GptCacheL} {G : Graph} {st' : St}
    (h : gptRelStage env o clsC G4 gptC0 = .ok (G, st')) :
    ∃ gptC1, st' = ⟨gptC1, clsC⟩ ∧ cext gptC0 gptC1 ∧
      ∀ o2 : Oracle, gptRelStage env o2 clsC G4 gptC1 = .ok (G, st') := by
  unfold gptRelStage at h
  split at h
  · cases h
  · rename_i G5 gptC1 hrl
    simp only [Except.ok.injEq, Prod.mk.injEq] at h
    obtain ⟨hG, hst⟩ := h
    subst hG
    subst hst
    obtain ⟨hext, hrepl⟩ := gptRelLoop_replay _ hrl
    refine ⟨gptC1, rfl, hext, ?_⟩
    intro o2
    unfold gptRelStage
    rw [hrepl o2 gptC1 (cext_refl _)]

theorem gptSeedStage_replay {env : Env} {o : Oracle} {clsC : ClsCacheL}
    {G3 : Graph} {gptC : GptCacheL} {G : Graph} {st' : St}
    (h : gptSeedStage env o clsC G3 gptC = .ok (G, st')) :
    ∃ gptC1, st' = ⟨gptC1, clsC⟩ ∧ cext gptC gptC1 ∧
      ∀ o2 : Oracle, gptSeedStage env o2 clsC G3 gptC1 = .ok (G, st') := by
  unfold gptSeedStage at h
  split at h
  · cases h
  · rename_i qs gptC0 hg
    obtain ⟨hext1, hhit⟩ := memoGpt_ok hg
    obtain ⟨gptC1, hst, hext2, hrepl⟩ := gptRelStage_replay h
    refine ⟨gptC1, hst, cext_trans hext1 hext2, ?_⟩
    intro o2
    unfold gptSeedStage
    rw [memoGpt_hit (hext2 _ _ hhit)]
    exact hrepl o2

theorem cnStage_replay {env : Env} {o : Oracle} {clsC : ClsCacheL}
    {G2 : Graph} {gptC : GptCacheL} {G : Graph} {st' : St}
    (h : cnStage env o clsC G2 gptC = .ok (G, st')) :
    ∃ gptC1, st' = ⟨gptC1, clsC⟩ ∧ cext gptC gptC1 ∧
      ∀ o2 : Oracle, cnStage env o2 clsC G2 gptC1 = .ok (G, st') := by
  unfold cnStage at h
  split at h
  · cases h
  · rename_i sems hcn
    obtain ⟨gptC1, hst, hext, hrepl⟩ := gptSeedStage_replay h
    refine ⟨gptC1, hst, hext, ?_⟩
    intro o2
    unfold cnStage
    rw [hcn]
    exact hrepl o2

/-- Replaying a build against the final caches of a successful first build
reproduces the first build exactly — for an arbitrary second oracle, i.e.
even though the raw chat-completion endpoint is non-deterministic across
calls, every GPT interaction of the second run is served from the caches
the first run filled. -/
theorem buildGraph_replay {env : Env} {o : Oracle} {st : St} {G : Graph}
    {st' : St} (h : buildGraph env o st = .ok (G, st')) :
    ∀ o2 : Oracle, buildGraph env o2 st' = .ok (G, st') := by
  intro o2
  unfold buildGraph at h
  split at h
  · cases h
  · rename_i G2 clsC hw
    obtain ⟨hextW, hreplW⟩ := wikiStage_replay hw
    obtain ⟨gptC1, hst, hextC, hreplC⟩ := cnStage_replay h
    have hcls : st'.clsCache = clsC := by rw [hst]
    have hgpt : st'.gptCache = gptC1 := by rw [hst]
    unfold buildGraph
    rw [hcls, hgpt, hreplW o2 clsC (cext_refl _)]
    exact hreplC o2

/-! ## Totality: the build succeeds whenever no external call raises -/

theorem wikiLoop_total {o : Oracle} {s : String}
    (hcls : ∀ p ch, ∃ v, o.classifyRaw p ch = .ok v) :
    ∀ (rows : List (String × String × String)) (G : Graph) (c : ClsCacheL),
      ∃ G' c', wikiLoop o s rows G c = .ok (G', c') := by
  intro rows
  induction rows with
  | nil =>
    intro G c
    exact ⟨G, c, rfl⟩
  | cons row rest ih =>
    intro G c
    obtain ⟨prop, plbl, objLbl⟩ := row
    by_cases hp : hierarchyPredicates.contains prop = true
    · have hm : ∃ v c1, memoCls o c s objLbl = .ok (v, c1) := by
        unfold memoCls
        cases hl : alookup (s, objLbl) c with
        | some w => exact ⟨w, c, rfl⟩
        | none =>
          obtain ⟨v, hv⟩ := hcls s objLbl
          rw [hv]
          exact ⟨classifyAnswer v, _, rfl⟩
      obtain ⟨v, c1, hm⟩ := hm
      obtain ⟨G', c', hrec⟩ := ih ((G.addNode objLbl ⟨objLbl, v, 1⟩).addEdge s objLbl) c1
      refine ⟨G', c', ?_⟩
      unfold wikiLoop
      rw [if_pos hp, hm]
      exact hrec
    · obtain ⟨G', c', hrec⟩ :=
        ih ((G.addNode objLbl ⟨objLbl, "association", 1⟩).addEdge s objLbl) c
      refine ⟨G', c', ?_⟩
      unfold wikiLoop
      rw [if_neg hp]
      exact hrec

theorem memoGpt_total {o : Oracle} {t : String} {l : Nat}
    (hgpt : ∃ v, o.gptRaw t l = .ok v) (c : GptCacheL) :
    ∃ v c1, memoGpt o c t l = .ok (v, c1) := by
  unfold memoGpt
  cases hl : alookup (t, l) c with
  | some w => exact ⟨w, c, rfl⟩
  | none =>
    obtain ⟨v, hv⟩ := hgpt
    unfold getGptRelated
    rw [hv]
    exact ⟨gptParse v, _, rfl⟩

theorem gptRelLoop_total {o : Oracle} {lim : Nat}
    (hgpt : ∀ t l, ∃ v, o.gptRaw t l = .ok v) :
    ∀ (snap : List String) (G : Graph) (c : GptCacheL),
      ∃ G' c', gptRelLoop o lim snap G c = .ok (G', c') := by
  intro snap
  induction snap with
  | nil =>
    intro G c
    exact ⟨G, c, rfl⟩
  | cons node rest ih =>
    intro G c
    by_cases hcond : ((alookup node G.nodes).getD emptyAttrs).rel = "related" ∨
        ((alookup node G.nodes).getD emptyAttrs).rel = "association" ∨
        ((alookup node G.nodes).getD emptyAttrs).rel = "custom"
    · obtain ⟨subs, c1, hm⟩ := memoGpt_total (hgpt node lim) c
      obtain ⟨G', c', hrec⟩ :=
        ih (gptSubsFold node G subs) c1
      refine ⟨G', c', ?_⟩
      unfold gptRelLoop
      dsimp only
      rw [if_pos hcond, hm]
      exact hrec
    · obtain ⟨G', c', hrec⟩ := ih G c
      refine ⟨G', c', ?_⟩
      unfold gptRelLoop
      dsimp only
      rw [if_neg hcond]
      exact hrec

/-- If none of the SPARQL, ConceptNet, GPT or classifier calls raises, the
build returns a graph — regardless of the entity-search outcome, because
`lookup_qid` catches its own failures and `build_graph` skips the
Wikidata branch on `None`. -/
theorem buildGraph_total (env : Env) (o : Oracle) (st : St)
    (hsp : ∀ q ps, ∃ v, env.sparqlResp q ps = .ok v)
    (hcn : ∃ v, env.cnResp env.seed env.semLim = .ok v)
    (hgpt : ∀ t l, ∃ v, o.gptRaw t l = .ok v)
    (hcls : ∀ p ch, ∃ v, o.classifyRaw p ch = .ok v) :
    ∃ G st', buildGraph env o st = .ok (G, st') := by
  have hws : ∃ G2 c2, wikiStage env o
      (env.custom.foldl customStep (Graph.empty.addNode env.seed ⟨env.seed, "seed", 0⟩))
      st.clsCache = .ok (G2, c2) := by
    unfold wikiStage
    cases lookupQid env env.seed with
    | none => exact ⟨_, _, rfl⟩
    | some qid =>
      obtain ⟨wrels, hw⟩ := hsp qid (hierarchyPredicates ++ associationPredicates)
      show ∃ G2 c2,
        (match env.sparqlResp qid (hierarchyPredicates ++ associationPredicates) with
          | Except.error e => Except.error e
          | Except.ok wrels =>
            wikiLoop o env.seed wrels
              (List.foldl customStep
                (Graph.empty.addNode env.seed ⟨env.seed, "seed", 0⟩) env.custom)
              st.clsCache) = Except.ok (G2, c2)
      rw [hw]
      exact wikiLoop_total hcls wrels _ _
  obtain ⟨G2, c2, hws⟩ := hws
  obtain ⟨sems, hcnv⟩ := hcn
  obtain ⟨qs, gptC0, hmg⟩ := memoGpt_total (hgpt env.seed env.gptSeedLim) st.gptCache
  obtain ⟨G5, gptC1, hrl⟩ := gptRelLoop_total hgpt
    ((List.foldl (seedFanStep env.seed "gpt_seed")
        (List.foldl (seedFanStep env.seed "related") G2 sems) qs).nodes.map Prod.fst)
    (List.foldl (seedFanStep env.seed "gpt_seed")
        (List.foldl (seedFanStep env.seed "related") G2 sems) qs) gptC0
  have h4 : gptRelStage env o c2
      (List.foldl (seedFanStep env.seed "gpt_seed")
        (List.foldl (seedFanStep env.seed "related") G2 sems) qs) gptC0 =
      .ok (G5, ⟨gptC1, c2⟩) := by
    unfold gptRelStage
    rw [hrl]
  have h3 : gptSeedStage env o c2
      (List.foldl (seedFanStep env.seed "related") G2 sems) st.gptCache =
      .ok (G5, ⟨gptC1, c2⟩) := by
    unfold gptSeedStage
    rw [hmg]
    exact h4
  have h2 : cnStage env o c2 G2 st.gptCache = .ok (G5, ⟨gptC1, c2⟩) := by
    unfold cnStage
    rw [hcnv]
    exact h3
  refine ⟨G5, ⟨gptC1, c2⟩, ?_⟩
  unfold buildGraph
  rw [hws]
  exact h2

/-! ## Attribute overwrite on re-insertion -/

theorem alookup_update {β : Type} (l : List (String × β)) (nid : String)
    (d : β) (h : (alookup nid l).isSome = true) :
    alookup nid (l.map (fun p => if p.1 = nid then (nid, d) else p)) = some d := by
  induction l with
  | nil => simp [alookup] at h
  | cons p rest ih =>
    obtain ⟨k', v⟩ := p
    simp only [List.map_cons]
    dsimp only
    by_cases hp : k' = nid
    · subst hp
      rw [if_pos rfl, alookup_cons, if_pos rfl]
    · rw [if_neg hp, alookup_cons, if_neg (fun hh => hp hh.symm)]
      rw [alookup_cons, if_neg (fun hh => hp hh.symm)] at h
      exact ih h

/-- Re-adding an existing identifier replaces the stored attribute record
(the networkx `add_node` attribute update): last-write-wins. -/
theorem addNode_overwrite {G : Graph} {nid : String} (d : NodeData)
    (h : G.hasNode nid = true) :
    alookup nid (G.addNode nid d).nodes = some d := by
  simp only [Graph.addNode, h, if_true]
  exact alookup_update G.nodes nid d h

/-! ## Depth analysis

The last stage reads the parent's depth from the live attribute dict at
every inner iteration, so a GPT response containing the queried node
itself escalates the depths stored for the following suggestions.  The
`DepthInv` bound therefore holds only under a no-self-suggestion
condition on the oracle and the incoming cache. -/

theorem alookup_append_left {α β : Type} [DecidableEq α] {k : α} {v : β}
    {l1 : List (α × β)} (l2 : List (α × β)) (h : alookup k l1 = some v) :
    alookup k (l1 ++ l2) = some v := by
  induction l1 with
  | nil => simp [alookup] at h
  | cons p rest ih =>
    obtain ⟨k', w⟩ := p
    by_cases hk : k = k'
    · rw [alookup_cons, if_pos hk] at h
      rw [List.cons_append, alookup_cons, if_pos hk]
      exact h
    · rw [alookup_cons, if_neg hk] at h
      rw [List.cons_append, alookup_cons, if_neg hk]
      exact ih h

theorem alookup_append_right {α β : Type} [DecidableEq α] {k : α}
    {l1 : List (α × β)} (l2 : List (α × β)) (h : alookup k l1 = none) :
    alookup k (l1 ++ l2) = alookup k l2 := by
  induction l1 with
  | nil => rfl
  | cons p rest ih =>
    obtain ⟨k', w⟩ := p
    by_cases hk : k = k'
    · rw [alookup_cons, if_pos hk] at h
      cases h
    · rw [alookup_cons, if_neg hk] at h
      rw [List.cons_append, alookup_cons, if_neg hk]
      exact ih h

/-- Adding a *different* node leaves a key's stored record unchanged. -/
theorem alookup_addNode_other {G : Graph} {k nid : String} (d : NodeData)
    (h : k ≠ nid) : alookup k (G.addNode nid d).nodes = alookup k G.nodes := by
  by_cases hn : G.hasNode nid = true
  · simp only [Graph.addNode, hn, if_true]
    induction G.nodes with
    | nil => rfl
    | cons p rest ih =>
      obtain ⟨k', v⟩ := p
      simp only [List.map_cons]
      dsimp only
      by_cases hp : k' = nid
      · subst hp
        rw [if_pos rfl, alookup_cons, alookup_cons, if_neg h, if_neg h]
        exact ih
      · rw [if_neg hp, alookup_cons, alookup_cons]
        by_cases hk : k = k'
        · rw [if_pos hk, if_pos hk]
        · rw [if_neg hk, if_neg hk]
          exact ih
  · simp only [Graph.addNode]
    rw [if_neg hn]
    cases hl : alookup k G.nodes with
    | some w => exact alookup_append_left _ hl
    | none =>
      rw [alookup_append_right _ hl, alookup_cons, if_neg h]
      rfl

theorem alookup_getD_append_emptyAttrs (l : List (String × NodeData))
    (x k : String) :
    (alookup k (l ++ [(x, emptyAttrs)])).getD emptyAttrs =
      (alookup k l).getD emptyAttrs := by
  cases hl : alookup k l with
  | some w => rw [alookup_append_left _ hl]
  | none =>
    rw [alookup_append_right _ hl, alookup_cons]
    by_cases hk : k = x
    · rw [if_pos hk]
      rfl
    · rw [if_neg hk]
      rfl

/-- `add_edge` only ever inserts nodes with *empty* attribute dicts, so the
`data.get`-style read of any key is unaffected by it. -/
theorem alookup_getD_addEdge (G : Graph) (u v k : String) :
    (alookup k (G.addEdge u v).nodes).getD emptyAttrs =
      (alookup k G.nodes).getD emptyAttrs := by
  simp only [Graph.addEdge]
  split_ifs
  all_goals first
    | rfl
    | simp only [alookup_getD_append_emptyAttrs]

theorem mem_addEdge {G : Graph} {u v : String} {p : String × NodeData}
    (h : p ∈ (G.addEdge u v).nodes) :
    p ∈ G.nodes ∨ p = (u, emptyAttrs) ∨ p = (v, emptyAttrs) := by
  simp only [Graph.addEdge] at h
  split_ifs at h
  all_goals try simp only [List.mem_append, List.mem_singleton] at h
  all_goals tauto

/-- Depth sanity of one stored record: at most 2, and at most 1 whenever
the tag is one the last stage expands. -/
def depthOK (d : NodeData) : Prop :=
  d.depth ≤ 2 ∧ (d.expandable → d.depth ≤ 1)

def DepthInv (G : Graph) : Prop :=
  ∀ p ∈ G.nodes, depthOK p.2

theorem depthOK_emptyAttrs : depthOK emptyAttrs :=
  ⟨by decide, fun _ => by decide⟩

theorem depthOK_mk_le (lbl r : String) (n : Nat) (h2 : n ≤ 2) (h1 : n ≤ 1) :
    depthOK ⟨lbl, r, n⟩ :=
  ⟨h2, fun _ => h1⟩

theorem not_expandable_gpt_related (lbl : String) (n : Nat) :
    ¬ (NodeData.mk lbl "gpt_related" n).expandable := by
  intro hx
  simp [NodeData.expandable] at hx

theorem depthOK_gpt_related (lbl : String) {n : Nat} (h : n ≤ 1) :
    depthOK ⟨lbl, "gpt_related", n + 1⟩ :=
  ⟨Nat.succ_le_succ h, fun hx => absurd hx (not_expandable_gpt_related lbl (n + 1))⟩

theorem depthInv_addNode {G : Graph} {nid : String} {d : NodeData}
    (h : DepthInv G) (hd : depthOK d) : DepthInv (G.addNode nid d) := by
  intro p hp
  rcases mem_addNode hp with hp | hp
  · subst hp
    exact hd
  · exact h p hp

theorem depthInv_addEdge {G : Graph} {u v : String} (h : DepthInv G) :
    DepthInv (G.addEdge u v) := by
  intro p hp
  rcases mem_addEdge hp with hp | hp | hp
  · exact h p hp
  · subst hp
    exact depthOK_emptyAttrs
  · subst hp
    exact depthOK_emptyAttrs

theorem depthInv_init (s : String) :
    DepthInv (Graph.empty.addNode s ⟨s, "seed", 0⟩) := by
  intro p hp
  rcases mem_addNode hp with hp | hp
  · subst hp
    exact depthOK_mk_le _ _ _ (Nat.zero_le 2) (Nat.zero_le 1)
  · simp [Graph.empty] at hp

theorem depthInv_customStep {G : Graph} (h : DepthInv G)
    (pc : String × String) : DepthInv (customStep G pc) := by
  have h1 : DepthInv (if G.hasNode pc.1 then G else G.addNode pc.1 ⟨pc.1, "seed", 0⟩) := by
    split
    · exact h
    · exact depthInv_addNode h (depthOK_mk_le _ _ _ (Nat.zero_le 2) (Nat.zero_le 1))
  show DepthInv (Graph.addEdge _ pc.1 pc.2)
  exact depthInv_addEdge
    (depthInv_addNode h1 (depthOK_mk_le _ _ _ (Nat.le_succ 1) Nat.le.refl))

theorem depthInv_customFold (l : List (String × String)) {G : Graph}
    (h : DepthInv G) : DepthInv (l.foldl customStep G) := by
  induction l generalizing G with
  | nil => exact h
  | cons pc rest ih => exact ih (depthInv_customStep h pc)

theorem depthInv_seedFanFold (s rtag : String) (l : List String) {G : Graph}
    (h : DepthInv G) : DepthInv (l.foldl (seedFanStep s rtag) G) := by
  induction l generalizing G with
  | nil => exact h
  | cons lbl rest ih =>
    exact ih (depthInv_addEdge
      (depthInv_addNode h (depthOK_mk_le _ _ _ (Nat.le_succ 1) Nat.le.refl)))

theorem depthInv_wikiLoop {o : Oracle} {s : String} :
    ∀ (rows : List (String × String × String)) {G : Graph} {c : ClsCacheL}
      {G' : Graph} {c' : ClsCacheL},
      DepthInv G → wikiLoop o s rows G c = .ok (G', c') → DepthInv G' := by
  intro rows
  induction rows with
  | nil =>
    intro G c G' c' hD h
    simp only [wikiLoop, Except.ok.injEq, Prod.mk.injEq] at h
    exact h.1 ▸ hD
  | cons row rest ih =>
    intro G c G' c' hD h
    obtain ⟨prop, plbl, objLbl⟩ := row
    unfold wikiLoop at h
    cases hm : (if hierarchyPredicates.contains prop then memoCls o c s objLbl
                else .ok ("association", c)) with
    | error e =>
      rw [hm] at h
      cases h
    | ok rc =>
      obtain ⟨rtype, c1⟩ := rc
      rw [hm] at h
      exact ih (depthInv_addEdge
        (depthInv_addNode hD (depthOK_mk_le _ _ _ (Nat.le_succ 1) Nat.le.refl))) h

theorem depthInv_wikiStage {env : Env} {o : Oracle} {G G2 : Graph}
    {c c2 : ClsCacheL} (hD : DepthInv G)
    (h : wikiStage env o G c = .ok (G2, c2)) : DepthInv G2 := by
  unfold wikiStage at h
  split at h
  · split at h
    · cases h
    · rename_i wrels hs
      exact depthInv_wikiLoop wrels hD h
  · simp only [Except.ok.injEq, Prod.mk.injEq] at h
    exact h.1 ▸ hD

/-- No chat-completion response suggests the queried term itself.  When a
response does contain its own query term, the `add_node` update raises the
live depth read by the following suggestions, and depths escalate past 2
(see the concrete build in the C3 amendment). -/
def gptNoSelfOracle (o : Oracle) : Prop :=
  ∀ t l raw, o.gptRaw t l = .ok raw → t ∉ gptParse raw

/-- The same condition on the entries of an incoming memoization cache. -/
def gptNoSelfCache (c : GptCacheL) : Prop :=
  ∀ t l v, alookup (t, l) c = some v → t ∉ v

theorem gptNoSelfCache_nil : gptNoSelfCache [] := by
  intro t l v h
  simp [alookup] at h

theorem memoGpt_noSelf {o : Oracle} {c : GptCacheL} {t : String} {l : Nat}
    {v : List String} {c' : GptCacheL} (hno : gptNoSelfOracle o)
    (hnc : gptNoSelfCache c) (h : memoGpt o c t l = .ok (v, c')) :
    t ∉ v ∧ gptNoSelfCache c' := by
  unfold memoGpt at h
  cases hl : alookup (t, l) c with
  | some w =>
    rw [hl] at h
    simp only [Except.ok.injEq, Prod.mk.injEq] at h
    obtain ⟨hv, hc⟩ := h
    subst hv
    subst hc
    exact ⟨hnc _ _ _ hl, hnc⟩
  | none =>
    rw [hl] at h
    cases hr : o.gptRaw t l with
    | error e =>
      rw [show getGptRelated o t l = .error e from by
        simp [getGptRelated, hr, Except.map]] at h
      cases h
    | ok raw =>
      rw [show getGptRelated o t l = .ok (gptParse raw) from by
        simp [getGptRelated, hr, Except.map]] at h
      simp only [Except.ok.injEq, Prod.mk.injEq] at h
      obtain ⟨hv, hc⟩ := h
      subst hv
      subst hc
      refine ⟨hno t l raw hr, ?_⟩
      intro t' l' w hw
      rw [alookup_cons] at hw
      split at hw
      · rename_i hk
        cases hw
        injection hk with ht hl2
        rw [ht]
        exact hno t l raw hr
      · exact hnc _ _ _ hw

theorem depthInv_gptSubsFold (subs : List String) :
    ∀ {node : String} {G : Graph}, DepthInv G → node ∉ subs →
      ((alookup node G.nodes).getD emptyAttrs).depth ≤ 1 →
      DepthInv (gptSubsFold node G subs) := by
  induction subs with
  | nil =>
    intro node G hD _ _
    exact hD
  | cons sub rest ih =>
    intro node G hD hs hd
    have hne : node ≠ sub := fun he => hs (he ▸ List.mem_cons_self _ _)
    have hrest : node ∉ rest := fun hm => hs (List.mem_cons_of_mem _ hm)
    have hD1 : DepthInv ((G.addNode sub ⟨sub, "gpt_related",
        ((alookup node G.nodes).getD emptyAttrs).depth + 1⟩).addEdge node sub) :=
      depthInv_addEdge (depthInv_addNode hD (depthOK_gpt_related sub hd))
    have hd1 : ((alookup node ((G.addNode sub ⟨sub, "gpt_related",
        ((alookup node G.nodes).getD emptyAttrs).depth + 1⟩).addEdge node sub).nodes).getD
        emptyAttrs).depth ≤ 1 := by
      rw [alookup_getD_addEdge, alookup_addNode_other _ hne]
      exact hd
    exact ih hD1 hrest hd1

theorem depthInv_gptRelLoop {o : Oracle} {lim : Nat} (hno : gptNoSelfOracle o) :
    ∀ (snap : List String) {G : Graph} {c : GptCacheL} {G' : Graph}
      {c' : GptCacheL},
      DepthInv G → gptNoSelfCache c →
      gptRelLoop o lim snap G c = .ok (G', c') → DepthInv G' := by
  intro snap
  induction snap with
  | nil =>
    intro G c G' c' hD _ h
    simp only [gptRelLoop, Except.ok.injEq, Prod.mk.injEq] at h
    exact h.1 ▸ hD
  | cons node rest ih =>
    intro G c G' c' hD hnc h
    unfold gptRelLoop at h
    dsimp only at h
    by_cases hcond : ((alookup node G.nodes).getD emptyAttrs).rel = "related" ∨
        ((alookup node G.nodes).getD emptyAttrs).rel = "association" ∨
        ((alookup node G.nodes).getD emptyAttrs).rel = "custom"
    · rw [if_pos hcond] at h
      cases hm : memoGpt o c node lim with
      | error e =>
        rw [hm] at h
        cases h
      | ok sc =>
        obtain ⟨subs, c1⟩ := sc
        rw [hm] at h
        obtain ⟨hself, hnc1⟩ := memoGpt_noSelf hno hnc hm
        have hd : ((alookup node G.nodes).getD emptyAttrs).depth ≤ 1 := by
          cases hl : alookup node G.nodes with
          | none => decide
          | some dat =>
            rw [hl] at hcond
            have hg := hD (node, dat) (alookup_mem hl)
            exact hg.2 hcond
        exact ih (depthInv_gptSubsFold subs hD hself hd) hnc1 h
    · rw [if_neg hcond] at h
      exact ih hD hnc h

/-- Depths never exceed 2 in a build whose GPT responses (and incoming
cache entries) never contain the queried term itself. -/
theorem depthInv_buildGraph {env : Env} {o : Oracle} {st : St} {G : Graph}
    {st' : St} (hno : gptNoSelfOracle o) (hnc : gptNoSelfCache st.gptCache)
    (h : buildGraph env o st = .ok (G, st')) : DepthInv G := by
  unfold buildGraph at h
  split at h
  · cases h
  · rename_i G2 clsC hw
    have hD2 := depthInv_wikiStage
      (depthInv_customFold env.custom (depthInv_init env.seed)) hw
    unfold cnStage at h
    split at h
    · cases h
    · rename_i sems hcn
      have hD3 := depthInv_seedFanFold env.seed "related" sems hD2
      unfold gptSeedStage at h
      split at h
      · cases h
      · rename_i qs gptC0 hg
        obtain ⟨hqs, hnc0⟩ := memoGpt_noSelf hno hnc hg
        have hD4 := depthInv_seedFanFold env.seed "gpt_seed" qs hD3
        unfold gptRelStage at h
        split at h
        · cases h
        · rename_i G5 gptC1 hrl
          simp only [Except.ok.injEq, Prod.mk.injEq] at h
          exact h.1 ▸ depthInv_gptRelLoop hno _ hD4 hnc0 hrl

/-! ## Claim C1 — fetcher-failure handling -/

def c1Env : Env where
  seed := "a"
  subDepth := 1
  taxLim := 20
  semLim := 20
  gptSeedLim := 20
  gptRelLim := 5
  custom := []
  searchResp := fun _ => .error ()
  sparqlResp := fun _ _ => .ok []
  cnResp := fun _ _ => .error ()
  exactMatch := fun _ => none

def c1Oracle : Oracle := ⟨fun _ _ => .ok "", fun _ _ => .ok ""⟩

/-- Claim C1, counterexample: with the ConceptNet fetch raising (network
error / non-2xx / malformed payload), the whole build aborts with that
exception — `get_conceptnet_related` has no handler and `build_graph` does
not catch it, contradicting "caught at the point of the failing call and
converted to an empty result". -/
theorem c1_counterexample :
    buildGraph c1Env c1Oracle (St.mk [] []) = .error () ∧
    c1Env.cnResp c1Env.seed c1Env.semLim = .error () :=
  ⟨rfl, rfl⟩

/-- Claim C1, amended: only the entity-resolution call (`lookup_qid`)
catches its failures; when none of the SPARQL, ConceptNet, GPT or
classifier calls raises, the build succeeds regardless of the search
outcome.  (A failure of any of those four calls propagates out of
`build_graph` uncaught, as the counterexample shows.) -/
theorem c1_amended (env : Env) (o : Oracle) (st : St)
    (hsp : ∀ q ps, ∃ v, env.sparqlResp q ps = .ok v)
    (hcn : ∃ v, env.cnResp env.seed env.semLim = .ok v)
    (hgpt : ∀ t l, ∃ v, o.gptRaw t l = .ok v)
    (hcls : ∀ p ch, ∃ v, o.classifyRaw p ch = .ok v) :
    ∃ G st', buildGraph env o st = .ok (G, st') :=
  buildGraph_total env o st hsp hcn hgpt hcls

def c1wEnv : Env where
  seed := "a"
  subDepth := 1
  taxLim := 20
  semLim := 20
  gptSeedLim := 20
  gptRelLim := 5
  custom := []
  searchResp := fun _ => .error ()
  sparqlResp := fun _ _ => .ok []
  cnResp := fun _ _ => .ok []
  exactMatch := fun _ => none

/-- Claim C1, witness: the amended theorem applies to a concrete
environment whose entity search raises but whose fetchers succeed. -/
theorem c1_witness :
    ∃ G st', buildGraph c1wEnv c1Oracle (St.mk [] []) = .ok (G, st') :=
  c1_amended c1wEnv c1Oracle (St.mk [] [])
    (fun _ _ => ⟨[], rfl⟩) ⟨[], rfl⟩ (fun _ _ => ⟨"", rfl⟩) (fun _ _ => ⟨"", rfl⟩)

/-! ## Claim C2 — behaviour on a failed seed resolution -/

def c2Env : Env where
  seed := "a"
  subDepth := 1
  taxLim := 20
  semLim := 20
  gptSeedLim := 20
  gptRelLim := 5
  custom := []
  searchResp := fun _ => .error ()
  sparqlResp := fun _ _ => .ok []
  cnResp := fun _ _ => .ok ["x"]
  exactMatch := fun _ => none

def c2Oracle : Oracle := ⟨fun _ _ => .ok "", fun _ _ => .ok ""⟩

def c2Graph : Graph :=
  ⟨[("a", ⟨"a", "seed", 0⟩), ("x", ⟨"x", "related", 1⟩)], [("a", "x")], true⟩

def c2St : St := ⟨[(("x", 5), []), (("a", 20), [])], []⟩

/-- Claim C2, counterexample: with the seed resolution failing (the search
call raises, so `lookup_qid` returns `None`), the build does *not* stop
with a "not found" outcome: it proceeds with the other sources and returns
a graph containing the ConceptNet neighbour `x`. -/
theorem c2_counterexample :
    c2Env.searchResp c2Env.seed = .error () ∧
    buildGraph c2Env c2Oracle (St.mk [] []) = .ok (c2Graph, c2St) ∧
    ("x", (⟨"x", "related", 1⟩ : NodeData)) ∈ c2Graph.nodes :=
  ⟨rfl, rfl, by decide⟩

/-- Claim C2, amended: whenever seed resolution fails — `lookup_qid`
returns `None`, which covers both a raised search call and an empty hit
list — the build merely skips the Wikidata expansion (its result is
independent of the SPARQL source) and proceeds with the
custom/ConceptNet/GPT sources; no "not found" outcome is reported. -/
theorem c2_amended (env : Env) (o : Oracle) (st : St)
    (sp' : String → List String → Except Unit (List (String × String × String)))
    (h : lookupQid env env.seed = none) :
    buildGraph { env with sparqlResp := sp' } o st = buildGraph env o st := by
  obtain ⟨se, sd, tl, sl, gsl, grl, cu, sr, sp, cn, em⟩ := env
  simp only at h
  have h' : lookupQid ⟨se, sd, tl, sl, gsl, grl, cu, sr, sp', cn, em⟩ se = none := h
  simp only [buildGraph, wikiStage, h, h', cnStage, gptSeedStage, gptRelStage]

/-- A second environment for the claim: the search call *succeeds* but
returns no hits, the other resolution-miss shape (`lookup_qid` takes
`hits[0]` only `if hits`). -/
def c2wEnv : Env where
  seed := "a"
  subDepth := 1
  taxLim := 20
  semLim := 20
  gptSeedLim := 20
  gptRelLim := 5
  custom := []
  searchResp := fun _ => .ok []
  sparqlResp := fun _ _ => .ok []
  cnResp := fun _ _ => .ok ["x"]
  exactMatch := fun _ => none

/-- Claim C2, witness: the amended theorem at a concrete environment whose
search returns an empty hit list, against a SPARQL source that would have
returned rows. -/
theorem c2_witness :
    lookupQid c2wEnv c2wEnv.seed = none ∧
    buildGraph { c2wEnv with sparqlResp := fun _ _ => .ok [("P279", "p", "z")] }
      c2Oracle (St.mk [] []) = buildGraph c2wEnv c2Oracle (St.mk [] []) :=
  ⟨rfl, c2_amended c2wEnv c2Oracle (St.mk [] []) (fun _ _ => .ok [("P279", "p", "z")]) rfl⟩

/-! ## Claim C3 — the depth attribute versus the depth setting -/

def c3Env : Env where
  seed := "a"
  subDepth := 1
  taxLim := 20
  semLim := 20
  gptSeedLim := 20
  gptRelLim := 5
  custom := []
  searchResp := fun _ => .error ()
  sparqlResp := fun _ _ => .ok []
  cnResp := fun _ _ => .ok ["b"]
  exactMatch := fun _ => none

def c3Oracle : Oracle :=
  ⟨fun t _ => if t = "b" then .ok "- c" else .ok "", fun _ _ => .ok ""⟩

def c3Graph : Graph :=
  ⟨[("a", ⟨"a", "seed", 0⟩), ("b", ⟨"b", "related", 1⟩),
    ("c", ⟨"c", "gpt_related", 2⟩)],
   [("a", "b"), ("b", "c")], true⟩

def c3St : St := ⟨[(("b", 5), ["c"]), (("a", 20), [])], []⟩

/-- Claim C3, counterexample: with the subtopic-depth slider at 1, the
build still produces a node of depth 2 (a GPT expansion of a depth-1
related node) — the `sub_depth` setting does not bound the stored depth
attribute (it is never read by `build_graph`). -/
theorem c3_counterexample :
    c3Env.subDepth = 1 ∧
    buildGraph c3Env c3Oracle (St.mk [] []) = .ok (c3Graph, c3St) ∧
    ("c", (⟨"c", "gpt_related", 2⟩ : NodeData)) ∈ c3Graph.nodes ∧
    c3Env.subDepth < 2 :=
  ⟨rfl, rfl, by decide, by decide⟩

def c3EscOracle : Oracle :=
  ⟨fun t _ => if t = "b" then .ok "b\ny" else .ok "", fun _ _ => .ok ""⟩

def c3EscGraph : Graph :=
  ⟨[("a", ⟨"a", "seed", 0⟩), ("b", ⟨"b", "gpt_related", 2⟩),
    ("y", ⟨"y", "gpt_related", 3⟩)],
   [("a", "b"), ("b", "b"), ("b", "y")], true⟩

def c3EscSt : St := ⟨[(("b", 5), ["b", "y"]), (("a", 20), [])], []⟩

/-- Claim C3, amended: the subtopic-depth setting never bounds the stored
depths; instead, depths are bounded by 2 exactly in those builds where no
GPT response (and no incoming cache entry) lists the queried term itself.
The last stage re-reads the parent's depth from the live attribute dict at
each inner iteration, so a self-suggestion escalates the depths of the
following suggestions: the concrete build in the second conjunct (GPT
answers "b, y" when asked about b) stores y at depth 3. -/
theorem c3_amended :
    (∀ (env : Env) (o : Oracle) (st : St) (G : Graph) (st' : St),
      gptNoSelfOracle o → gptNoSelfCache st.gptCache →
      buildGraph env o st = .ok (G, st') → ∀ p ∈ G.nodes, p.2.depth ≤ 2) ∧
    (buildGraph c3Env c3EscOracle (St.mk [] []) = .ok (c3EscGraph, c3EscSt) ∧
      ("y", (⟨"y", "gpt_related", 3⟩ : NodeData)) ∈ c3EscGraph.nodes) :=
  ⟨fun _ o st G _ hno hnc h p hp => (depthInv_buildGraph hno hnc h p hp).1,
   rfl, by decide⟩

/-- Claim C3, witness: the no-self hypotheses hold of the counterexample's
concrete oracle and of the empty caches, so the depth bound applies to its
build. -/
theorem c3_witness :
    gptNoSelfOracle c3Oracle ∧ gptNoSelfCache (St.mk [] []).gptCache ∧
    ∀ p ∈ c3Graph.nodes, p.2.depth ≤ 2 := by
  have hno : gptNoSelfOracle c3Oracle := by
    intro t l raw h
    dsimp only [c3Oracle] at h
    by_cases ht : t = "b"
    · rw [if_pos ht] at h
      cases h
      subst ht
      decide
    · rw [if_neg ht] at h
      cases h
      rw [show gptParse "" = [] from rfl]
      exact List.not_mem_nil t
  exact ⟨hno, gptNoSelfCache_nil,
    fun p hp => c3_amended.1 c3Env c3Oracle (St.mk [] []) c3Graph c3St hno
      gptNoSelfCache_nil rfl p hp⟩

/-! ## Claim C4 — re-inserting an existing identifier -/

def c4Env : Env where
  seed := "a"
  subDepth := 1
  taxLim := 20
  semLim := 20
  gptSeedLim := 20
  gptRelLim := 5
  custom := []
  searchResp := fun _ => .error ()
  sparqlResp := fun _ _ => .ok []
  cnResp := fun _ _ => .ok ["a"]
  exactMatch := fun _ => none

def c4Oracle : Oracle := ⟨fun _ _ => .ok "", fun _ _ => .ok ""⟩

def c4Graph : Graph :=
  ⟨[("a", ⟨"a", "related", 1⟩)], [("a", "a")], true⟩

def c4St : St := ⟨[(("a", 5), []), (("a", 20), [])], []⟩

/-- Claim C4, counterexample: the seed node `a` is first inserted with
`(rel seed, depth 0)`; when ConceptNet returns the label `a` itself, the
re-insertion *overwrites* the stored record to `(rel related, depth 1)` —
networkx `add_node` updates attributes, so re-adding an existing
identifier is not a no-op and the semantics is last-write-wins, not
first-write-wins. -/
theorem c4_counterexample :
    buildGraph c4Env c4Oracle (St.mk [] []) = .ok (c4Graph, c4St) ∧
    alookup "a" c4Graph.nodes = some ⟨"a", "related", 1⟩ ∧
    (⟨"a", "related", 1⟩ : NodeData) ≠ ⟨"a", "seed", 0⟩ :=
  ⟨rfl, rfl, by decide⟩

/-- Claim C4, amended: the node identifier set of a built graph never
contains duplicates (re-insertion does not append), but re-adding an
existing identifier replaces the previously stored label/rel/depth record
(last-write-wins). -/
theorem c4_amended :
    (∀ (env : Env) (o : Oracle) (st : St) (G : Graph) (st' : St),
      clsWF st.clsCache → buildGraph env o st = .ok (G, st') →
      (G.nodes.map Prod.fst).Nodup) ∧
    (∀ (G : Graph) (nid : String) (d : NodeData), G.hasNode nid = true →
      alookup nid (G.addNode nid d).nodes = some d) :=
  ⟨fun _ _ _ _ _ hwf h => (buildGraph_inv hwf h).1,
   fun _ _ d h => addNode_overwrite d h⟩

/-- Claim C4, witness: both parts of the amended statement at concrete
inputs — the counterexample's build has duplicate-free identifiers, and a
double insertion of `a` stores the second record. -/
theorem c4_witness :
    (c4Graph.nodes.map Prod.fst).Nodup ∧
    alookup "a" (((Graph.empty.addNode "a" ⟨"a", "seed", 0⟩).addNode
      "a" ⟨"a", "related", 1⟩)).nodes = some ⟨"a", "related", 1⟩ :=
  ⟨c4_amended.1 c4Env c4Oracle (St.mk [] []) c4Graph c4St clsWF_nil rfl,
   c4_amended.2 (Graph.empty.addNode "a" ⟨"a", "seed", 0⟩) "a" ⟨"a", "related", 1⟩ rfl⟩

/-! ## Claim C5 — edge endpoints exist when the edge is recorded -/

def c5Env : Env where
  seed := "a"
  subDepth := 1
  taxLim := 20
  semLim := 20
  gptSeedLim := 20
  gptRelLim := 5
  custom := [("a", "k")]
  searchResp := fun _ => .ok ["Q1"]
  sparqlResp := fun _ _ => .ok [("P279", "subclass of", "w"), ("P361", "part of", "v")]
  cnResp := fun _ _ => .ok ["m"]
  exactMatch := fun _ => none

def c5Oracle : Oracle :=
  ⟨fun t _ => if t = "m" then .ok "- n" else .ok "", fun _ _ => .ok "subtopic"⟩

def c5Graph : Graph :=
  ⟨[("a", ⟨"a", "seed", 0⟩), ("k", ⟨"k", "custom", 1⟩),
    ("w", ⟨"w", "hierarchy", 1⟩), ("v", ⟨"v", "association", 1⟩),
    ("m", ⟨"m", "related", 1⟩), ("n", ⟨"n", "gpt_related", 2⟩)],
   [("a", "k"), ("a", "w"), ("a", "v"), ("a", "m"), ("m", "n")], true⟩

def c5St : St :=
  ⟨[(("m", 5), ["n"]), (("v", 5), []), (("k", 5), []), (("a", 20), [])],
   [(("a", "w"), "hierarchy")]⟩

/-- Claim C5: every `add_edge` call performed during a successful build
finds both endpoint identifiers already present as nodes — the ghost
`edgeOk` flag, and-ed at each call with "both endpoints existed before
this call", is true of the result. -/
theorem c5_edge_endpoints (env : Env) (o : Oracle) (st : St) (G : Graph)
    (st' : St) (hwf : clsWF st.clsCache)
    (h : buildGraph env o st = .ok (G, st')) : G.edgeOk = true :=
  (buildGraph_inv hwf h).2.1

/-- Claim C5, witness: the endpoint invariant at a concrete build that
exercises all five edge-adding stages. -/
theorem c5_witness : c5Graph.edgeOk = true :=
  c5_edge_endpoints c5Env c5Oracle (St.mk [] []) c5Graph c5St clsWF_nil rfl

/-! ## Claim C6 — fetcher limits and timeouts -/

def c6Oracle : Oracle := ⟨fun _ _ => .ok "x\ny\nz", fun _ _ => .ok ""⟩

/-- Claim C6, counterexample: the GPT fetcher asked for 2 items returns
all 3 parsed lines of the model response (the `limit` appears only in the
prompt text, the parsed list is not truncated), and neither the OpenAI
call nor the SPARQL query carries any timeout. -/
theorem c6_counterexample :
    getGptRelated c6Oracle "a" 2 = .ok ["x", "y", "z"] ∧
    2 < (["x", "y", "z"] : List String).length ∧
    (gptCall "a" 2).timeoutSecs = none ∧
    (sparqlCall "Q1" hierarchyPredicates).timeoutSecs = none :=
  ⟨rfl, by decide, rfl, rfl⟩

/-- Claim C6, amended: only the Wikidata-search and ConceptNet HTTP calls
carry a 5-second timeout; the search call asks for 1 result and the
ConceptNet call forwards the caller's limit to the service; the SPARQL
fetcher takes no limit at all and sets no timeout; the two OpenAI calls
set no timeout, and `get_gpt_related` does not truncate its parsed output
to `limit` (per the counterexample). -/
theorem c6_amended (label term qid parent child : String) (lim : Nat)
    (preds : List String) :
    (searchCall label).timeoutSecs = some 5 ∧
    (searchCall label).limitParam = some 1 ∧
    (conceptnetCall term lim).timeoutSecs = some 5 ∧
    (conceptnetCall term lim).limitParam = some lim ∧
    (sparqlCall qid preds).timeoutSecs = none ∧
    (sparqlCall qid preds).limitParam = none ∧
    (gptCall term lim).timeoutSecs = none ∧
    (classifyCall parent child).timeoutSecs = none :=
  ⟨rfl, rfl, rfl, rfl, rfl, rfl, rfl, rfl⟩

/-! ## Claim C7 — the resolver's claimed fallback -/

def c7Env : Env where
  seed := "x"
  subDepth := 1
  taxLim := 20
  semLim := 20
  gptSeedLim := 20
  gptRelLim := 5
  custom := []
  searchResp := fun _ => .ok []
  sparqlResp := fun _ _ => .ok []
  cnResp := fun _ _ => .ok []
  exactMatch := fun _ => some "Q1"

/-- Claim C7, counterexample: with an empty primary search result and a
label-exact-match lookup that would return `Q1`, `lookup_qid` returns
`None` without any fallback — it differs from the spec's resolver
(`lookupQidSpec`), which would fall back and find `Q1`. -/
theorem c7_counterexample :
    c7Env.searchResp "x" = .ok [] ∧
    c7Env.exactMatch "x" = some "Q1" ∧
    lookupQid c7Env "x" = none ∧
    lookupQidSpec c7Env "x" = some "Q1" :=
  ⟨rfl, rfl, rfl, rfl⟩

/-- Claim C7, amended: `lookup_qid` returns `None` — not an exception — on
a network error or an empty result set; it performs no secondary
label-exact-match fallback. -/
theorem c7_amended (env : Env) (label : String)
    (h : env.searchResp label = .error () ∨ env.searchResp label = .ok []) :
    lookupQid env label = none := by
  unfold lookupQid
  rcases h with h | h
  · rw [h]
  · rw [h]
    rfl

/-- Claim C7, witness: the amended behaviour at the concrete environment of
the counterexample. -/
theorem c7_witness : lookupQid c7Env "x" = none :=
  c7_amended c7Env "x" (Or.inr rfl)

/-! ## Claim C8 — replaying a build against the memoization caches -/

/-- Claim C8: if a build succeeds, a second build with unchanged inputs
against the caches the first build filled returns the very same graph and
caches — for *any* second oracle, i.e. even though the raw GPT endpoint is
non-deterministic, every generative result of the second run is served
from the `(term, limit)`-keyed memoization, so the two graphs have
identical nodes, edges and labels. -/
theorem c8_replay (env : Env) (o1 o2 : Oracle) (st : St) (G : Graph)
    (st' : St) (h : buildGraph env o1 st = .ok (G, st')) :
    buildGraph env o2 st' = .ok (G, st') :=
  buildGraph_replay h o2

def c8Env : Env where
  seed := "a"
  subDepth := 1
  taxLim := 20
  semLim := 20
  gptSeedLim := 20
  gptRelLim := 5
  custom := []
  searchResp := fun _ => .error ()
  sparqlResp := fun _ _ => .ok []
  cnResp := fun _ _ => .ok ["b"]
  exactMatch := fun _ => none

def c8FirstOracle : Oracle :=
  ⟨fun t _ => if t = "b" then .ok "c1\nc2" else .ok "q1", fun _ _ => .ok "related"⟩

/-- A second oracle returning entirely different chat-completion contents:
the replay must not depend on it. -/
def c8SecondOracle : Oracle :=
  ⟨fun _ _ => .ok "totally\ndifferent\nanswers", fun _ _ => .ok "subtopic"⟩

def c8Graph : Graph :=
  ⟨[("a", ⟨"a", "seed", 0⟩), ("b", ⟨"b", "related", 1⟩),
    ("q1", ⟨"q1", "gpt_seed", 1⟩), ("c1", ⟨"c1", "gpt_related", 2⟩),
    ("c2", ⟨"c2", "gpt_related", 2⟩)],
   [("a", "b"), ("a", "q1"), ("b", "c1"), ("b", "c2")], true⟩

def c8St : St := ⟨[(("b", 5), ["c1", "c2"]), (("a", 20), ["q1"])], []⟩

/-- Claim C8, witness: a concrete first build populates the caches; the
replay with a *different* oracle reproduces it exactly. -/
theorem c8_witness : buildGraph c8Env c8SecondOracle c8St = .ok (c8Graph, c8St) :=
  c8_replay c8Env c8FirstOracle c8SecondOracle (St.mk [] []) c8Graph c8St rfl

/-! ## Claim C9 — the unused sliders -/

/-- Claim C9: the "Subtopic depth (Wikidata)" (`sub_depth`) and "Max
P279/P31 per node" (`tax_lim`) slider values are never read by
`build_graph`: two builds differing only in those two settings produce
identical results. -/
theorem c9_sliders_unused (env : Env) (o : Oracle) (st : St) (d t : Nat) :
    buildGraph { env with subDepth := d, taxLim := t } o st =
      buildGraph env o st := rfl

/-! ## Claim C10 — the seven source tags -/

def c10Env : Env where
  seed := "s"
  subDepth := 2
  taxLim := 20
  semLim := 20
  gptSeedLim := 20
  gptRelLim := 5
  custom := [("s", "k")]
  searchResp := fun _ => .ok ["Q5"]
  sparqlResp := fun _ _ => .ok [("P31", "instance of", "w"), ("P921", "main subject", "v")]
  cnResp := fun _ _ => .ok ["m"]
  exactMatch := fun _ => none

def c10Oracle : Oracle :=
  ⟨fun t _ => if t = "m" then .ok "- n" else .ok "", fun _ _ => .ok "it is related"⟩

def c10Graph : Graph :=
  ⟨[("s", ⟨"s", "seed", 0⟩), ("k", ⟨"k", "custom", 1⟩),
    ("w", ⟨"w", "association", 1⟩), ("v", ⟨"v", "association", 1⟩),
    ("m", ⟨"m", "related", 1⟩), ("n", ⟨"n", "gpt_related", 2⟩)],
   [("s", "k"), ("s", "w"), ("s", "v"), ("s", "m"), ("m", "n")], true⟩

def c10St : St :=
  ⟨[(("m", 5), ["n"]), (("v", 5), []), (("w", 5), []), (("k", 5), []),
    (("s", 20), [])],
   [(("s", "w"), "association")]⟩

/-- Claim C10: every node of a successfully built graph carries one of the
seven source tags seed / custom / hierarchy / association / related /
gpt_seed / gpt_related, and the GPT edge classifier returns only
"hierarchy" or "association" whatever the model answers. -/
theorem c10_source_tags :
    (∀ (env : Env) (o : Oracle) (st : St) (G : Graph) (st' : St),
      clsWF st.clsCache → buildGraph env o st = .ok (G, st') →
      ∀ p ∈ G.nodes, relAllowed p.2.rel) ∧
    (∀ content : String,
      classifyAnswer content = "hierarchy" ∨ classifyAnswer content = "association") :=
  ⟨fun _ _ _ _ _ hwf h p hp => (buildGraph_inv hwf h).2.2.2 p hp,
   classifyAnswer_cases⟩

/-- Claim C10, witness: the tag invariant at a concrete build exercising
all stages, and the classifier at a concrete non-subtopic answer. -/
theorem c10_witness :
    (∀ p ∈ c10Graph.nodes, relAllowed p.2.rel) ∧
    (classifyAnswer "it is related" = "hierarchy" ∨
      classifyAnswer "it is related" = "association") :=
  ⟨fun p hp =>
    c10_source_tags.1 c10Env c10Oracle (St.mk [] []) c10Graph c10St clsWF_nil rfl p hp,
   c10_source_tags.2 "it is related"⟩
